import Mathlib

/-!
Verification of the esql parameterized SQL statement builder.

The development shallowly embeds `src/query.rs`: the typed argument values
(`Ty`, from `src/types.rs`), the fragment buffer `ArgString` pairing raw SQL
text with an ordered argument list, the boolean expression composers `Where`
and `Having` with their AND/OR combination operators, the clause list `Query`
and its `build` assembler.  Raw SQL text is represented as `List Char`
(Rust `String` viewed as its character sequence).
-/

/-- Turns a Lean string literal into the character-list representation used
for raw SQL text throughout this development. -/
def lit (s : String) : List Char := s.data

/-- Typed argument values, from the `Type` enum of `src/types.rs` (the
feature-gated Json/Timestamp/Uuid variants are omitted as they are disabled
compile-time options).  Fixed-width integers are carried as `Int`/`Nat`:
no arithmetic is ever performed on them by the builder, they are opaque
payloads. -/
inductive Ty where
  | Bool (b : Bool)
  | Int8 (i : Int)
  | Int16 (i : Int)
  | Int32 (i : Int)
  | Int64 (i : Int)
  | Isize (i : Int)
  | UInt8 (n : Nat)
  | UInt16 (n : Nat)
  | UInt32 (n : Nat)
  | UInt64 (n : Nat)
  | Usize (n : Nat)
  | Float (f : Float)
  | Double (f : Float)
  | Null
  | Str (s : List Char)

/-- A fragment buffer: raw SQL text plus the ordered argument values bound to
its placeholder markers.  From `struct ArgString` in `src/query.rs` (the
`Args` newtype around `Vec<Type>` is inlined as the `List Ty`). -/
structure ArgString where
  raw : List Char
  args : List Ty

/-- `ArgString::wrapped`: parenthesize the raw text, keeping the arguments. -/
def ArgString.wrapped (a : ArgString) : ArgString :=
  ⟨'(' :: a.raw ++ [')'], a.args⟩

/-- `impl Add for ArgString`: concatenate texts and append argument lists. -/
def ArgString.add (a b : ArgString) : ArgString :=
  ⟨a.raw ++ b.raw, a.args ++ b.args⟩

/-- `impl Add<&str> for ArgString`: append plain text, no arguments. -/
def ArgString.addStr (a : ArgString) (s : List Char) : ArgString :=
  ⟨a.raw ++ s, a.args⟩

/-- The last-combining-operator tag, `enum LogicalOp` in `src/query.rs`. -/
inductive LogicalOp where
  | And
  | Or
deriving DecidableEq

/-- A WHERE boolean expression: its trailing logical operator tag plus the
fragment buffer, `struct Where` in `src/query.rs`. -/
structure Where where
  op : LogicalOp
  inner : ArgString

/-- A HAVING boolean expression, `struct Having` in `src/query.rs`. -/
structure Having where
  op : LogicalOp
  inner : ArgString

/-- A tagged clause, `enum Fragment` in `src/query.rs`. -/
inductive Fragment where
  | Select (a : ArgString)
  | From (a : ArgString)
  | Where (w : Where)
  | Having (h : Having)
  | Raw (a : ArgString)

/-- `Fragment::is_empty`: a fragment is empty when its raw text is empty. -/
def Fragment.isEmpty : Fragment → Bool
  | .Select a => a.raw.isEmpty
  | .From a => a.raw.isEmpty
  | .Where w => w.inner.raw.isEmpty
  | .Having h => h.inner.raw.isEmpty
  | .Raw a => a.raw.isEmpty

/-- A query under construction: the ordered clause list, `struct Query` in
`src/query.rs`. -/
abbrev Query := List Fragment

/-- Builder function `raw`. -/
def rawQ (a : ArgString) : Query := [Fragment.Raw a]

/-- Builder function `select`. -/
def select (a : ArgString) : Query := [Fragment.Select a]

/-- Builder function `from` (named `from'` because `from` is a Lean keyword). -/
def from' (a : ArgString) : Query := [Fragment.From a]

/-- Builder functions `where`/`wh`: a fresh expression is tagged `And`. -/
def wh (a : ArgString) : Where := ⟨.And, a⟩

/-- Builder function `having`: a fresh expression is tagged `And`. -/
def having (a : ArgString) : Having := ⟨.And, a⟩

/-- `"?,".repeat(n)` from `where_in`/`raw_in`. -/
def repeatChars (n : Nat) (s : List Char) : List Char :=
  (List.replicate n s).flatten

/-- Rust `str::trim_end_matches` for a single pattern character: repeatedly
remove the character from the end of the text. -/
def trimEndMatches (c : Char) (s : List Char) : List Char :=
  (s.reverse.dropWhile (fun x => x = c)).reverse

/-- The placeholder list `"?,".repeat(n).trim_end_matches(',')` used by the
IN helpers of `src/query.rs`. -/
def qmarksText (n : Nat) : List Char :=
  trimEndMatches ',' (repeatChars n (lit "?,"))

/-- `where_in` from `src/query.rs`: `column IN (?,...,?)` with the values as
arguments, or the `1=0` literal when the value list is empty. -/
def where_in (column : List Char) (values : List Ty) : Where :=
  if values.isEmpty then wh ⟨lit "1=0", []⟩
  else ⟨.And, ⟨column ++ lit " IN (" ++ qmarksText values.length ++ lit ")", values⟩⟩

/-- `raw_in` from `src/query.rs`: `fragment IN (?,...,?)` with the values as
arguments.  The source performs no emptiness check (`// TODO: What should we
do when values was empty?`). -/
def raw_in (fragment : List Char) (values : List Ty) : Query :=
  [Fragment.Raw ⟨fragment ++ lit " IN (" ++ qmarksText values.length ++ lit ")", values⟩]

/-- `impl Add for Query`: concatenate the clause lists. -/
def addQ (q other : Query) : Query := q ++ other

/-- `impl Add<T: Into<ArgString>> for Query`: push a raw clause. -/
def addRaw (q : Query) (a : ArgString) : Query := q ++ [Fragment.Raw a]

/-- `impl Add<Where> for Query`: push a where clause. -/
def addWh (q : Query) (w : Where) : Query := q ++ [Fragment.Where w]

/-- `impl Add<Having> for Query`: push a having clause. -/
def addHaving (q : Query) (h : Having) : Query := q ++ [Fragment.Having h]

/-- `impl BitAnd for Where` (also reached through `impl Add for Where`):
join two expressions with AND, wrapping any side whose trailing operator
is `Or`; the result is tagged `And`. -/
def andW (l r : Where) : Where :=
  ⟨.And, match l.op, r.op with
    | .And, .And => (l.inner.addStr (lit " AND ")).add r.inner
    | .And, .Or => (l.inner.addStr (lit " AND ")).add r.inner.wrapped
    | .Or, .And => (l.inner.wrapped.addStr (lit " AND ")).add r.inner
    | .Or, .Or => (l.inner.wrapped.addStr (lit " AND ")).add r.inner.wrapped⟩

/-- `impl BitOr for Where`: join two expressions with OR; the result is
tagged `Or`. -/
def orW (l r : Where) : Where :=
  ⟨.Or, (l.inner.addStr (lit " OR ")).add r.inner⟩

/-- `impl Not for Where`: wrap the raw text in `NOT (...)`, keeping tag and
arguments. -/
def notW (w : Where) : Where :=
  ⟨w.op, ⟨lit "NOT (" ++ w.inner.raw ++ [')'], w.inner.args⟩⟩

/-- `impl BitAnd for Having`, mirroring `impl BitAnd for Where`. -/
def andH (l r : Having) : Having :=
  ⟨.And, match l.op, r.op with
    | .And, .And => (l.inner.addStr (lit " AND ")).add r.inner
    | .And, .Or => (l.inner.addStr (lit " AND ")).add r.inner.wrapped
    | .Or, .And => (l.inner.wrapped.addStr (lit " AND ")).add r.inner
    | .Or, .Or => (l.inner.wrapped.addStr (lit " AND ")).add r.inner.wrapped⟩

/-- `impl BitOr for Having`, mirroring `impl BitOr for Where`. -/
def orH (l r : Having) : Having :=
  ⟨.Or, (l.inner.addStr (lit " OR ")).add r.inner⟩

/-- The `visited_*` flags threaded through `Query::build`. -/
structure Flags where
  vSelect : Bool
  vFrom : Bool
  vWhere : Bool
  vHaving : Bool

/-- One step of `Query::build`: the text and arguments a single fragment
contributes to the output buffer, plus the updated visited flags.  Mirrors
the loop body of `Query::build` in `src/query.rs` exactly, including the
skipping of empty fragments before any keyword is emitted. -/
structure BuildOut where
  text : List Char
  args : List Ty
  flags : Flags

/-- The contribution of one fragment given the current visited flags
(the body of the `for frag in self.0` loop of `Query::build`). -/
def emit (fl : Flags) (f : Fragment) : BuildOut :=
  if f.isEmpty then ⟨[], [], fl⟩
  else match f with
    | .Select a =>
        if !fl.vSelect then ⟨lit "SELECT " ++ a.raw, a.args, { fl with vSelect := true }⟩
        else ⟨',' :: a.raw, a.args, fl⟩
    | .From a =>
        if !fl.vFrom then ⟨lit " FROM " ++ a.raw, a.args, { fl with vFrom := true }⟩
        else ⟨',' :: a.raw, a.args, fl⟩
    | .Where w =>
        if !fl.vWhere then
          match w.op with
          | .And => ⟨lit " WHERE " ++ w.inner.raw, w.inner.args, { fl with vWhere := true }⟩
          | .Or => ⟨lit " WHERE (" ++ w.inner.raw ++ [')'], w.inner.args, { fl with vWhere := true }⟩
        else
          match w.op with
          | .And => ⟨lit " AND " ++ w.inner.raw, w.inner.args, fl⟩
          | .Or => ⟨lit " AND (" ++ w.inner.raw ++ [')'], w.inner.args, fl⟩
    | .Having h =>
        if !fl.vHaving then
          match h.op with
          | .And => ⟨lit " HAVING " ++ h.inner.raw, h.inner.args, { fl with vHaving := true }⟩
          | .Or => ⟨lit " HAVING (" ++ h.inner.raw ++ [')'], h.inner.args, { fl with vHaving := true }⟩
        else
          match h.op with
          | .And => ⟨lit " AND " ++ h.inner.raw, h.inner.args, fl⟩
          | .Or => ⟨lit " AND (" ++ h.inner.raw ++ [')'], h.inner.args, fl⟩
    | .Raw a => ⟨' ' :: a.raw, a.args, fl⟩

/-- The loop of `Query::build` over a clause list: contributions are
appended in clause order, flags threaded left to right. -/
def buildFrom (fl : Flags) : List Fragment → BuildOut
  | [] => ⟨[], [], fl⟩
  | f :: rest =>
      let e := emit fl f
      let r := buildFrom e.flags rest
      ⟨e.text ++ r.text, e.args ++ r.args, r.flags⟩

/-- `Query::build` from `src/query.rs`: assemble the statement text and the
argument list.  The source wraps the pair in an unconditional `Ok`; the
error case is unreachable, so the pair is returned directly. -/
def build (q : Query) : List Char × List Ty :=
  ((buildFrom ⟨false, false, false, false⟩ q).text,
   (buildFrom ⟨false, false, false, false⟩ q).args)

/-- The expected shape of `n` comma-separated placeholder markers
(`?`, `?,?`, `?,?,?`, ...), used to state what the IN helpers produce. -/
def markers : Nat → List Char
  | 0 => []
  | n + 1 => '?' :: (List.replicate n (lit ",?")).flatten

/-- The number of placeholder markers in a raw text. -/
def countMarkers (s : List Char) : Nat := s.count '?'

/-- Modelled from the spec: the placeholder output dialect selected at render
time (`ArgFormat` is exported by `src/lib.rs` and used by `src/database/pg.rs`
and `src/tests/query.rs`, but its definition is not among the sources). -/
inductive ArgFormat where
  | QuestionMark
  | Indexed

/-- Modelled from the spec: the internal prepared-statement representation of
the staged builder, missing from the sources — raw text with a generic
placeholder character, a parallel list of byte offsets at which placeholders
occur, and the ordered argument values. -/
structure Prepared where
  text : List Char
  offsets : List Nat
  args : List Ty

/-- Modelled from the spec: the marker emitted for the placeholder of
(1-based) index `i` — the generic marker verbatim for `QuestionMark`, the
database-indexed marker `$i` for `Indexed`. -/
def markerFor : ArgFormat → Nat → List Char
  | .QuestionMark, _ => ['?']
  | .Indexed, i => '$' :: Nat.toDigits 10 i

/-- Modelled from the spec: final rendering walks the offset list in order;
text before each offset is copied verbatim, the placeholder character at the
offset is replaced by the marker for the running index, which starts at `i`
and increases by one per placeholder.  `base` is the absolute position of the
start of `text`. -/
def renderFrom (fmt : ArgFormat) (text : List Char) (offs : List Nat)
    (base i : Nat) : List Char :=
  match offs with
  | [] => text
  | o :: rest =>
      text.take (o - base) ++ markerFor fmt i
        ++ renderFrom fmt (text.drop (o - base + 1)) rest (o + 1) (i + 1)

/-- Modelled from the spec: `Query::build(ArgFormat)` final rendering step as
invoked by `PgQueryExt::get_raw` in `src/database/pg.rs` — materialize the
statement text in the requested dialect, handing the argument list over
unchanged. -/
def render (fmt : ArgFormat) (p : Prepared) : List Char × List Ty :=
  (renderFrom fmt p.text p.offsets 0 1, p.args)

/-- A text interleaving `segs.length` placeholder characters between the given
plain segments, ending with `last`: the well-formed inputs of the renderer. -/
def withMarkers : List (List Char) → List Char → List Char
  | [], last => last
  | s :: rest, last => s ++ '?' :: withMarkers rest last

/-- The placeholder offsets of `withMarkers segs last` when the text starts at
absolute position `base`. -/
def offsetsFrom (base : Nat) : List (List Char) → List Nat
  | [] => []
  | s :: rest => (base + s.length) :: offsetsFrom (base + s.length + 1) rest

/-- The same interleaving with database-indexed markers `$i, $(i+1), ...`
substituted for the placeholders, left to right. -/
def indexedText (i : Nat) : List (List Char) → List Char → List Char
  | [], last => last
  | s :: rest, last => s ++ ('$' :: Nat.toDigits 10 i) ++ indexedText (i + 1) rest last

/-- Modelled from the spec: the construction stages of the staged (typestate)
builder `Query<'a, S>`, which is exported by `src/lib.rs` and used by
`src/database/pg.rs` and `src/tests/query.rs` but whose definition is not
among the sources: `Initial → Where → Having → Suffix`. -/
inductive Stage where
  | Initial
  | WhereSt
  | HavingSt
  | Suffix
deriving DecidableEq

/-- Modelled from the spec: the composition operations of the staged builder —
plain raw-text concatenation, `wh`, `and`/`or` chaining, and `having`. -/
inductive BuildOp where
  | rawT (a : ArgString)
  | whE (a : ArgString)
  | andE (a : ArgString)
  | orE (a : ArgString)
  | havE (a : ArgString)

/-- Whether an operation is plain raw-text concatenation. -/
def BuildOp.isRawConcat : BuildOp → Bool
  | .rawT _ => true
  | _ => false

/-- Modelled from the spec: the stage transition table of the staged builder.
Raw concatenation is accepted in every state and moves a `Where`/`Having`
builder to the terminal `Suffix` state; `wh` is only legal from `Initial`;
`and`/`or` chaining only on a `Where`-stage builder; `having` from `Initial`
or `Where`.  `none` is an illegal (construction-time rejected) transition. -/
def nextStage : Stage → BuildOp → Option Stage
  | .Initial, .rawT _ => some .Initial
  | .WhereSt, .rawT _ => some .Suffix
  | .HavingSt, .rawT _ => some .Suffix
  | .Suffix, .rawT _ => some .Suffix
  | .Initial, .whE _ => some .WhereSt
  | .WhereSt, .andE _ => some .WhereSt
  | .WhereSt, .orE _ => some .WhereSt
  | .Initial, .havE _ => some .HavingSt
  | .WhereSt, .havE _ => some .HavingSt
  | _, _ => none

/-- Modelled from the spec: running a sequence of composition operations from
a given stage; the run is rejected as soon as one transition is illegal. -/
def runOps : Stage → List BuildOp → Option Stage
  | s, [] => some s
  | s, op :: rest =>
      match nextStage s op with
      | none => none
      | some s' => runOps s' rest

/-- The end-to-end query of claim C1, assembled with the `src/query.rs`
builder operations:
`select("a,b,c") + from("foobar") + wh("foo = 'bar'") + wh(("bar = ?", 1))
 + (wh(("d = ?", 10)) | wh(("e != ?", 20)))`. -/
def exampleQueryC1 : Query :=
  addWh
    (addWh
      (addWh (addQ (select ⟨lit "a,b,c", []⟩) (from' ⟨lit "foobar", []⟩))
        (wh ⟨lit "foo = 'bar'", []⟩))
      (wh ⟨lit "bar = ?", [Ty.Int32 1]⟩))
    (orW (wh ⟨lit "d = ?", [Ty.Int32 10]⟩) (wh ⟨lit "e != ?", [Ty.Int32 20]⟩))

/-- C1: the example query builds to exactly the claimed statement text with
the argument list `[1, 10, 20]` in that order. -/
theorem c1_end_to_end :
    build exampleQueryC1 =
      (lit "SELECT a,b,c FROM foobar WHERE foo = 'bar' AND bar = ? AND (d = ? OR e != ?)",
       [Ty.Int32 1, Ty.Int32 10, Ty.Int32 20]) := by
  rfl

/-- An empty fragment contributes nothing and leaves the visited flags
untouched (the `continue` at the top of the `Query::build` loop). -/
theorem emit_empty (fl : Flags) (f : Fragment) (h : f.isEmpty = true) :
    emit fl f = ⟨[], [], fl⟩ := by
  simp [emit, h]

/-- The build loop processes clause lists left to right: the output for
`l₁ ++ l₂` is the output for `l₁` followed by the output for `l₂` computed
from the flags `l₁` left behind. -/
theorem buildFrom_append (fl : Flags) (l₁ l₂ : List Fragment) :
    buildFrom fl (l₁ ++ l₂) =
      ⟨(buildFrom fl l₁).text ++ (buildFrom (buildFrom fl l₁).flags l₂).text,
       (buildFrom fl l₁).args ++ (buildFrom (buildFrom fl l₁).flags l₂).args,
       (buildFrom (buildFrom fl l₁).flags l₂).flags⟩ := by
  induction l₁ generalizing fl with
  | nil => simp [buildFrom]
  | cons f t ih =>
      simp only [List.cons_append, buildFrom, List.append_eq, ih, List.append_assoc]

/-- C2: the claim fails on the code — appending a From clause before a Select
clause renders the FROM text before the SELECT keyword, not in the canonical
`Select, From, ...` order. -/
theorem c2_counterexample :
    build (addQ (from' ⟨lit "foobar", []⟩) (select ⟨lit "a", []⟩)) =
        (lit " FROM foobarSELECT a", [])
      ∧ (build (addQ (from' ⟨lit "foobar", []⟩) (select ⟨lit "a", []⟩))).1 ≠
        lit "SELECT a FROM foobar" :=
  ⟨rfl, by decide⟩

/-- C2 (amended): `Query::build` renders clauses in insertion order — the
statement text and argument list for a clause list `l₁ ++ l₂` are the text and
arguments contributed by `l₁` followed by those contributed by `l₂` (each
kind's keyword being emitted at its first non-empty clause via the visited
flags); the canonical kind order only arises when clauses are appended in
that order. -/
theorem c2_insertion_order_rendering (fl : Flags) (l₁ l₂ : List Fragment) :
    buildFrom fl (l₁ ++ l₂) =
      ⟨(buildFrom fl l₁).text ++ (buildFrom (buildFrom fl l₁).flags l₂).text,
       (buildFrom fl l₁).args ++ (buildFrom (buildFrom fl l₁).flags l₂).args,
       (buildFrom (buildFrom fl l₁).flags l₂).flags⟩ :=
  buildFrom_append fl l₁ l₂

/-- C3: the claim fails on the code — joining `a AND b` (trailing operator
AND) with `c` via OR does not wrap the mismatched side in parentheses; the
rendered text is `a AND b OR c`, not `(a AND b) OR c`. -/
theorem c3_counterexample :
    (orW (andW (wh ⟨lit "a", []⟩) (wh ⟨lit "b", []⟩)) (wh ⟨lit "c", []⟩)).inner.raw =
        lit "a AND b OR c"
      ∧ (orW (andW (wh ⟨lit "a", []⟩) (wh ⟨lit "b", []⟩)) (wh ⟨lit "c", []⟩)).inner.raw ≠
        lit "(a AND b) OR c" :=
  ⟨rfl, by decide⟩

/-- C3 (amended): an OR-join concatenates the two texts with `" OR "` without
parenthesizing either side, whatever their trailing operators are, appends the
argument lists, and tags the result `Or`; parenthesization of the Or-tagged
result is deferred to a later AND-join or to `Query::build`.  This holds for
`Where` and `Having` alike. -/
theorem c3_or_join_unparenthesized (w₁ w₂ : Where) (h₁ h₂ : Having) :
    orW w₁ w₂ =
        ⟨.Or, ⟨w₁.inner.raw ++ lit " OR " ++ w₂.inner.raw,
               w₁.inner.args ++ w₂.inner.args⟩⟩
      ∧ orH h₁ h₂ =
        ⟨.Or, ⟨h₁.inner.raw ++ lit " OR " ++ h₂.inner.raw,
               h₁.inner.args ++ h₂.inner.args⟩⟩ := by
  constructor <;>
    simp [orW, orH, ArgString.add, ArgString.addStr, List.append_assoc]

/-- C4: an AND-join concatenates unparenthesized with `" AND "` when both
sides' trailing operator is AND, wraps any side whose trailing operator is OR
in parentheses before concatenating, and appends the right side's arguments to
the left side's.  This holds for `Where` and `Having` alike. -/
theorem c4_and_join (l r : Where) (lh rh : Having) :
    ((andW l r).op = .And
      ∧ (andW l r).inner.args = l.inner.args ++ r.inner.args
      ∧ (l.op = .And → r.op = .And →
          (andW l r).inner.raw = l.inner.raw ++ lit " AND " ++ r.inner.raw)
      ∧ (l.op = .And → r.op = .Or →
          (andW l r).inner.raw =
            l.inner.raw ++ lit " AND " ++ ('(' :: r.inner.raw ++ [')']))
      ∧ (l.op = .Or → r.op = .And →
          (andW l r).inner.raw =
            ('(' :: l.inner.raw ++ [')']) ++ lit " AND " ++ r.inner.raw)
      ∧ (l.op = .Or → r.op = .Or →
          (andW l r).inner.raw =
            ('(' :: l.inner.raw ++ [')']) ++ lit " AND " ++ ('(' :: r.inner.raw ++ [')'])))
    ∧ ((andH lh rh).op = .And
      ∧ (andH lh rh).inner.args = lh.inner.args ++ rh.inner.args
      ∧ (lh.op = .And → rh.op = .And →
          (andH lh rh).inner.raw = lh.inner.raw ++ lit " AND " ++ rh.inner.raw)
      ∧ (lh.op = .And → rh.op = .Or →
          (andH lh rh).inner.raw =
            lh.inner.raw ++ lit " AND " ++ ('(' :: rh.inner.raw ++ [')']))
      ∧ (lh.op = .Or → rh.op = .And →
          (andH lh rh).inner.raw =
            ('(' :: lh.inner.raw ++ [')']) ++ lit " AND " ++ rh.inner.raw)
      ∧ (lh.op = .Or → rh.op = .Or →
          (andH lh rh).inner.raw =
            ('(' :: lh.inner.raw ++ [')']) ++ lit " AND " ++ ('(' :: rh.inner.raw ++ [')']))) := by
  obtain ⟨lop, li⟩ := l
  obtain ⟨rop, ri⟩ := r
  obtain ⟨lhop, lhi⟩ := lh
  obtain ⟨rhop, rhi⟩ := rh
  cases lop <;> cases rop <;> cases lhop <;> cases rhop <;>
    simp [andW, andH, ArgString.add, ArgString.addStr, ArgString.wrapped,
      List.append_assoc]

/-- C4 witness: the AND-join of an And-tagged and an Or-tagged expression at a
concrete input, with the Or side parenthesized. -/
theorem c4_and_join_witness :
    LogicalOp.And = LogicalOp.And ∧ LogicalOp.Or = LogicalOp.Or ∧
      (andW ⟨.And, ⟨lit "x = 1", []⟩⟩ ⟨.Or, ⟨lit "y = 2 OR z = 3", [Ty.Int32 7]⟩⟩).inner.raw
        = lit "x = 1" ++ lit " AND " ++ ('(' :: lit "y = 2 OR z = 3" ++ [')']) :=
  ⟨rfl, rfl,
    (c4_and_join ⟨.And, ⟨lit "x = 1", []⟩⟩ ⟨.Or, ⟨lit "y = 2 OR z = 3", [Ty.Int32 7]⟩⟩
        ⟨.And, ⟨[], []⟩⟩ ⟨.And, ⟨[], []⟩⟩).1.2.2.2.1 rfl rfl⟩

/-- C5: the claim fails on the code — `raw_in` applied to an empty value
sequence produces the text `x IN ()` with an empty argument list, not the
`1=0` literal (the source leaves the empty case to a TODO). -/
theorem c5_counterexample :
    raw_in (lit "x") [] = [Fragment.Raw ⟨lit "x IN ()", []⟩]
      ∧ lit "x IN ()" ≠ lit "1=0" :=
  ⟨rfl, by decide⟩

/-- C5 (amended): `where_in` applied to an empty value sequence produces the
always-false literal `1=0` with an empty argument list, but `raw_in` applied
to an empty value sequence instead produces the empty `fragment IN ()` with an
empty argument list. -/
theorem c5_empty_in_policy (column fragment : List Char) :
    where_in column [] = ⟨.And, ⟨lit "1=0", []⟩⟩
      ∧ raw_in fragment [] = [Fragment.Raw ⟨fragment ++ lit " IN ()", []⟩] := by
  refine ⟨rfl, ?_⟩
  have h0 : qmarksText 0 = [] := rfl
  have h1 : lit " IN (" ++ lit ")" = lit " IN ()" := by decide
  simp [raw_in, h0, h1, List.append_assoc]

/-- `dropWhile` over an append only consumes the left part when the left part
does not vanish entirely. -/
theorem dropWhile_append_left (p : Char → Bool) (l₁ l₂ : List Char)
    (h : l₁.dropWhile p ≠ []) :
    (l₁ ++ l₂).dropWhile p = l₁.dropWhile p ++ l₂ := by
  induction l₁ with
  | nil => simp at h
  | cons a t ih =>
      cases hp : p a with
      | true =>
          have h' : t.dropWhile p ≠ [] := by simpa [List.dropWhile_cons, hp] using h
          simp [List.dropWhile_cons, hp, ih h']
      | false => simp [List.dropWhile_cons, hp]

/-- Trimming a trailing character from `xs ++ ys` only touches `ys` when the
trimmed `ys` is non-empty. -/
theorem trimEndMatches_append (c : Char) (xs ys : List Char)
    (h : trimEndMatches c ys ≠ []) :
    trimEndMatches c (xs ++ ys) = xs ++ trimEndMatches c ys := by
  have hne : ys.reverse.dropWhile (fun x => x = c) ≠ [] := by
    intro hc
    apply h
    unfold trimEndMatches
    rw [hc]
    rfl
  unfold trimEndMatches
  rw [List.reverse_append, dropWhile_append_left _ _ _ hne, List.reverse_append,
    List.reverse_reverse]

/-- `"?,".repeat (n+1)` peels one copy off the front. -/
theorem repeatChars_succ (n : Nat) (s : List Char) :
    repeatChars (n + 1) s = s ++ repeatChars n s := by
  simp [repeatChars, List.replicate_succ]

/-- The trimmed placeholder text of the IN helpers is exactly `n`
comma-separated question marks, for non-zero `n`. -/
theorem qmarksText_eq_markers (n : Nat) : qmarksText (n + 1) = markers (n + 1) := by
  induction n with
  | zero => decide
  | succ m ih =>
      have hne : trimEndMatches ',' (repeatChars (m + 1) (lit "?,")) ≠ [] := by
        show qmarksText (m + 1) ≠ []
        rw [ih]
        simp [markers]
      have l1 : lit "?," = ['?', ','] := rfl
      have l2 : lit ",?" = [',', '?'] := rfl
      show trimEndMatches ',' (repeatChars (m + 2) (lit "?,")) = markers (m + 2)
      rw [repeatChars_succ, trimEndMatches_append _ _ _ hne]
      show lit "?," ++ qmarksText (m + 1) = markers (m + 2)
      rw [ih]
      simp [markers, List.replicate_succ, List.flatten_cons, l1, l2]

/-- Counting the markers in the flattened replicas of `",?"`. -/
theorem flatten_replicate_count (n : Nat) :
    ((List.replicate n (lit ",?")).flatten).count '?' = n := by
  induction n with
  | zero => rfl
  | succ m ih =>
      have l2 : (lit ",?").count '?' = 1 := by decide
      simp [List.replicate_succ, List.flatten_cons, List.count_append, l2, ih,
        Nat.add_comm]

/-- The comma-separated marker text contains exactly `n` markers. -/
theorem markers_count (n : Nat) : (markers n).count '?' = n := by
  cases n with
  | zero => rfl
  | succ m =>
      simp [markers, List.count_cons, flatten_replicate_count]

/-- C6: on a non-empty value list, `where_in` produces
`column IN (?,...,?)` with exactly one marker per value, the values as the
argument list in their original order, and (for a marker-free column) as many
markers in the whole text as arguments. -/
theorem c6_where_in_nonempty (column : List Char) (v : Ty) (vs : List Ty) :
    where_in column (v :: vs) =
        ⟨.And, ⟨column ++ lit " IN (" ++ markers (v :: vs).length ++ lit ")", v :: vs⟩⟩
      ∧ (column.count '?' = 0 →
          countMarkers (where_in column (v :: vs)).inner.raw = (v :: vs).length) := by
  have hq : qmarksText (vs.length + 1) = markers (vs.length + 1) :=
    qmarksText_eq_markers vs.length
  constructor
  · simp [where_in, hq]
  · intro hc
    have hA : (lit " IN (").count '?' = 0 := by decide
    have hB : (lit ")").count '?' = 0 := by decide
    simp [where_in, hq, countMarkers, List.count_append, hc, hA, hB, markers_count]

/-- C6 witness: ten values produce ten markers over a marker-free column. -/
theorem c6_where_in_nonempty_witness :
    (lit "users.id").count '?' = 0 ∧
      countMarkers (where_in (lit "users.id")
        [Ty.Int32 10, Ty.Int32 20, Ty.Int32 30, Ty.Int32 40, Ty.Int32 50,
         Ty.Int32 60, Ty.Int32 70, Ty.Int32 80, Ty.Int32 90, Ty.Int32 100]).inner.raw = 10 := by
  refine ⟨by decide, ?_⟩
  have h := (c6_where_in_nonempty (lit "users.id") (Ty.Int32 10)
    [Ty.Int32 20, Ty.Int32 30, Ty.Int32 40, Ty.Int32 50,
     Ty.Int32 60, Ty.Int32 70, Ty.Int32 80, Ty.Int32 90, Ty.Int32 100]).2 (by decide)
  simpa using h

/-- C7: concatenating two fragment buffers concatenates the texts and appends
the argument lists in unchanged relative order, and preserves the
marker-count/argument-count alignment invariant. -/
theorem c7_concat_preserves_alignment (a b : ArgString)
    (ha : countMarkers a.raw = a.args.length)
    (hb : countMarkers b.raw = b.args.length) :
    (a.add b).raw = a.raw ++ b.raw
      ∧ (a.add b).args = a.args ++ b.args
      ∧ countMarkers (a.add b).raw = (a.add b).args.length := by
  refine ⟨rfl, rfl, ?_⟩
  simp [ArgString.add, countMarkers, List.count_append, List.length_append, ha, hb,
    countMarkers] at *
  simp [ha, hb]

/-- C7 witness: two aligned one-marker buffers concatenate to an aligned
two-marker buffer. -/
theorem c7_concat_preserves_alignment_witness :
    countMarkers (lit "bar = ?") = 1 ∧ countMarkers (lit " AND d = ?") = 1 ∧
      countMarkers ((ArgString.add ⟨lit "bar = ?", [Ty.Int32 1]⟩
          ⟨lit " AND d = ?", [Ty.Int32 10]⟩).raw)
        = ((ArgString.add ⟨lit "bar = ?", [Ty.Int32 1]⟩
          ⟨lit " AND d = ?", [Ty.Int32 10]⟩).args).length :=
  ⟨by decide, by decide,
    (c7_concat_preserves_alignment ⟨lit "bar = ?", [Ty.Int32 1]⟩
      ⟨lit " AND d = ?", [Ty.Int32 10]⟩ (by decide) (by decide)).2.2⟩

/-- C9: `Query::build` skips every clause whose text is empty — it contributes
no keyword, no separator, no text and none of its argument values, whatever
position it occupies in the clause list. -/
theorem c9_empty_clause_skipped (fl : Flags) (l₁ l₂ : List Fragment) (f : Fragment)
    (h : f.isEmpty = true) :
    buildFrom fl (l₁ ++ f :: l₂) = buildFrom fl (l₁ ++ l₂)
      ∧ build (l₁ ++ f :: l₂) = build (l₁ ++ l₂) := by
  have key : ∀ fl' : Flags, buildFrom fl' (l₁ ++ f :: l₂) = buildFrom fl' (l₁ ++ l₂) := by
    intro fl'
    rw [buildFrom_append fl' l₁ (f :: l₂), buildFrom_append fl' l₁ l₂]
    have he := emit_empty (buildFrom fl' l₁).flags f h
    simp [buildFrom, he]
  exact ⟨key fl, by simp [build, key]⟩

/-- C9 witness: an empty-text WHERE clause carrying an argument value is
skipped entirely, its argument included. -/
theorem c9_empty_clause_skipped_witness :
    Fragment.isEmpty (Fragment.Where ⟨.And, ⟨[], [Ty.Int32 5]⟩⟩) = true ∧
      build ([Fragment.Select ⟨lit "a", []⟩] ++ Fragment.Where ⟨.And, ⟨[], [Ty.Int32 5]⟩⟩ :: []) =
        build ([Fragment.Select ⟨lit "a", []⟩] ++ []) :=
  ⟨rfl, (c9_empty_clause_skipped ⟨false, false, false, false⟩
    [Fragment.Select ⟨lit "a", []⟩] [] (Fragment.Where ⟨.And, ⟨[], [Ty.Int32 5]⟩⟩) rfl).2⟩

/-- Walking the offset list of a well-formed marker interleaving replaces the
markers left to right: verbatim for `QuestionMark`, with the running index for
`Indexed`. -/
theorem renderFrom_withMarkers (fmt : ArgFormat) (segs : List (List Char)) :
    ∀ (last : List Char) (base i : Nat),
      renderFrom fmt (withMarkers segs last) (offsetsFrom base segs) base i =
        match fmt with
        | .QuestionMark => withMarkers segs last
        | .Indexed => indexedText i segs last := by
  induction segs with
  | nil =>
      intro last base i
      cases fmt <;> rfl
  | cons s rest ih =>
      intro last base i
      show renderFrom fmt (s ++ '?' :: withMarkers rest last)
          ((base + s.length) :: offsetsFrom (base + s.length + 1) rest) base i = _
      have ht : (s ++ '?' :: withMarkers rest last).take (base + s.length - base) = s := by
        rw [Nat.add_sub_cancel_left]
        exact List.take_left s ('?' :: withMarkers rest last)
      have hsplit : s ++ '?' :: withMarkers rest last = (s ++ ['?']) ++ withMarkers rest last := by
        simp
      have hd : (s ++ '?' :: withMarkers rest last).drop (base + s.length - base + 1) =
          withMarkers rest last := by
        rw [Nat.add_sub_cancel_left, hsplit,
          show s.length + 1 = (s ++ ['?']).length by simp]
        exact List.drop_left (s ++ ['?']) (withMarkers rest last)
      simp only [renderFrom, ht, hd]
      rw [ih last (base + s.length + 1) (i + 1)]
      cases fmt with
      | QuestionMark =>
          show (s ++ ['?']) ++ withMarkers rest last = withMarkers (s :: rest) last
        
          rw [← hsplit]
          rfl
      | Indexed =>
          show (s ++ '$' :: Nat.toDigits 10 i) ++ indexedText (i + 1) rest last = _
          rfl

/-- C8: rendering a prepared statement whose text interleaves placeholder
markers between plain segments replaces each marker, in left-to-right source
order, by the monotonically increasing database-indexed markers `$1, $2, ...`
starting at 1 when the `Indexed` format is selected, and emits the generic
markers verbatim with the `QuestionMark` format; the argument list is handed
over unchanged in both cases. -/
theorem c8_indexed_rendering (segs : List (List Char)) (last : List Char) (args : List Ty) :
    render .Indexed ⟨withMarkers segs last, offsetsFrom 0 segs, args⟩ =
        (indexedText 1 segs last, args)
      ∧ render .QuestionMark ⟨withMarkers segs last, offsetsFrom 0 segs, args⟩ =
        (withMarkers segs last, args) := by
  constructor <;> simp [render, renderFrom_withMarkers]

/-- A run of builder operations that is accepted from the terminal `Suffix`
stage consists of raw concatenations only and stays in `Suffix`. -/
theorem runOps_suffix_all_raw :
    ∀ (ops : List BuildOp) (s' : Stage),
      runOps .Suffix ops = some s' →
        (∀ op ∈ ops, op.isRawConcat = true) ∧ s' = .Suffix := by
  intro ops
  induction ops with
  | nil =>
      intro s' h
      simp only [runOps, Option.some.injEq] at h
      simp [h]
  | cons op rest ih =>
      intro s' h
      cases op with
      | rawT b =>
          have h' : runOps .Suffix rest = some s' := by
            simpa [runOps, nextStage] using h
          obtain ⟨h1, h2⟩ := ih s' h'
          refine ⟨?_, h2⟩
          intro op hop
          rcases List.mem_cons.mp hop with rfl | hmem
          · rfl
          · exact h1 op hmem
      | whE b => simp [runOps, nextStage] at h
      | andE b => simp [runOps, nextStage] at h
      | orE b => simp [runOps, nextStage] at h
      | havE b => simp [runOps, nextStage] at h

/-- C10: on a `Suffix`-stage builder (raw text concatenated after a WHERE or
HAVING clause), any further WHERE or HAVING composition — `wh`, `having`, or
`and`/`or` chaining — is rejected at construction time, and every accepted
continuation consists of raw concatenations only, so no built statement ever
contains a WHERE/HAVING attachment appended after such trailing raw text. -/
theorem c10_suffix_rejects_recomposition (a : ArgString) (ops : List BuildOp)
    (s' : Stage) (h : runOps .Suffix ops = some s') :
    nextStage .Suffix (.whE a) = none
      ∧ nextStage .Suffix (.havE a) = none
      ∧ nextStage .Suffix (.andE a) = none
      ∧ nextStage .Suffix (.orE a) = none
      ∧ (∀ op ∈ ops, op.isRawConcat = true)
      ∧ s' = .Suffix :=
  ⟨rfl, rfl, rfl, rfl, (runOps_suffix_all_raw ops s' h).1,
    (runOps_suffix_all_raw ops s' h).2⟩

/-- C10 witness: a concrete accepted `Suffix`-stage continuation (an
`ORDER BY` raw tail), on which the rejection of `wh` and the raw-only shape
of the continuation are instantiated. -/
theorem c10_suffix_rejects_recomposition_witness :
    runOps .Suffix [BuildOp.rawT ⟨lit "ORDER BY id", []⟩] = some .Suffix
      ∧ nextStage .Suffix (.whE ⟨lit "x = 1", []⟩) = none
      ∧ BuildOp.isRawConcat (BuildOp.rawT ⟨lit "ORDER BY id", []⟩) = true := by
  refine ⟨rfl, ?_, ?_⟩
  · exact (c10_suffix_rejects_recomposition ⟨lit "x = 1", []⟩
      [BuildOp.rawT ⟨lit "ORDER BY id", []⟩] .Suffix rfl).1
  · exact (c10_suffix_rejects_recomposition ⟨lit "x = 1", []⟩
      [BuildOp.rawT ⟨lit "ORDER BY id", []⟩] .Suffix rfl).2.2.2.2.1
      (BuildOp.rawT ⟨lit "ORDER BY id", []⟩) (by simp)
